import Mathlib

/-!
Verification of the instance-group settings aggregator and enrichment pipeline of
`src/eks/cloudformation/resources/hyperpod-cluster-creator/lambda_function/lambda_function.py`.

The embedding is shallow: the Python functions `combine_settings` and
`enrich_instance_groups` become Lean functions.  Python dict mutation is threaded as
explicit state; the `raise ValueError` in `enrich_instance_groups` becomes an `Except`
whose error value carries the caller-visible (partially mutated) list at the moment the
exception propagates.  External collaborators (the `json` module's `json.loads`, the
process environment, and the EC2 `describe_subnets` call) are parameters.
-/

namespace HyperpodCreator

/-- A JSON value, the result of `json.loads`.  `arr` plays the role of a Python `list`
(`isinstance(x, list)`), everything else is a non-list value. -/
inductive JVal where
  | null : JVal
  | bool : Bool → JVal
  | num : Int → JVal
  | str : String → JVal
  | arr : List JVal → JVal
  | obj : List (String × JVal) → JVal

/-- Model of `combine_settings` (lambda_function.py lines 33-70).

* `env i` models `os.environ.get(settings_pre ++ str(i))`: the value of the i-th
  indexed settings fragment, `none` when the variable is absent.
* `json_loads` models `json.loads`: `none` means a `json.JSONDecodeError` was raised
  (and caught by the `except` clause).
* `number_of_instance_groups` models `os.environ.get('NUMBER_OF_INSTANCE_GROUPS')`
  already passed through `int(...)`; the Python default is `20`.

The Python loop mutates `combined_settings` in place; here the accumulator is threaded
through a `foldl` over `range(1, num_groups + 1)` whose body is `combine_step`.  The
inner `for item in settings_json` loop (extend when the item is a list, append
otherwise) is the inner `foldl`. -/
def combine_step (env : Nat → Option String) (json_loads : String → Option JVal)
    (combined_settings : List JVal) (i : Nat) : List JVal :=
  match env i with
  | none => combined_settings
  | some s =>
    if s ≠ "" ∧ s ≠ "[]" then
      match json_loads s with
      | some (JVal.arr settings_json) =>
        settings_json.foldl
          (fun acc item =>
            match item with
            | JVal.arr xs => acc ++ xs
            | x => acc ++ [x])
          combined_settings
      | some _ => combined_settings
      | none => combined_settings
    else combined_settings

/-- The function `combine_settings` itself: fold `combine_step` over the indices
`range(1, num_groups + 1)`, starting from the empty list. -/
def combine_settings (env : Nat → Option String) (json_loads : String → Option JVal)
    (number_of_instance_groups : Option Nat) : List JVal :=
  let num_groups := number_of_instance_groups.getD 20
  (List.range' 1 num_groups).foldl (combine_step env json_loads) []

/-- The contribution of a single settings fragment to the combined list: empty when the
fragment is absent, empty, `"[]"`, unparseable, or not a JSON array; otherwise its
one-level flattening. -/
def fragment_elems (json_loads : String → Option JVal) (v : Option String) : List JVal :=
  match v with
  | none => []
  | some s =>
    if s ≠ "" ∧ s ≠ "[]" then
      match json_loads s with
      | some (JVal.arr settings_json) =>
        settings_json.flatMap (fun item =>
          match item with
          | JVal.arr xs => xs
          | x => [x])
      | some _ => []
      | none => []
    else []

/-- One-level-flattened element count of a JSON array's items: a nested array counts
its own elements, any other item counts one. -/
def one_level_count (items : List JVal) : Nat :=
  (items.map (fun item =>
    match item with
    | JVal.arr xs => xs.length
    | _ => 1)).sum

/-- The one-level-flattened element count a fragment contributes (0 when skipped). -/
def fragment_count (json_loads : String → Option JVal) (v : Option String) : Nat :=
  match v with
  | none => 0
  | some s =>
    if s ≠ "" ∧ s ≠ "[]" then
      match json_loads s with
      | some (JVal.arr settings_json) => one_level_count settings_json
      | some _ => 0
      | none => 0
    else 0

/-- Pointwise update of the fragment environment. -/
def update_env (env : Nat → Option String) (i : Nat) (v : Option String) :
    Nat → Option String :=
  fun j => if j = i then v else env j

/-- The `LifeCycleConfig` record written by the enrichment step. -/
structure LifeCycleConfig where
  sourceS3Uri : String
  onCreate : String
deriving DecidableEq, Repr

/-- The `OverrideVpcConfig` sub-dict: each field is `some _` when the key is present. -/
structure OverrideVpcConfig where
  securityGroupIds : Option (List String)
  subnets : Option (List String)
deriving DecidableEq, Repr

/-- One instance-group dict.  The four keys touched by `enrich_instance_groups` are
explicit (`none` = key absent); every other key passes through untouched and is
modelled by the opaque `rest` component. -/
structure InstanceGroup where
  executionRole : Option String
  lifeCycleConfig : Option LifeCycleConfig
  overrideVpcConfig : Option OverrideVpcConfig
  targetAvailabilityZoneId : Option String
  rest : List (String × String)
deriving DecidableEq, Repr

/-- Python truthiness of an `os.environ.get` result: `None` and `''` are falsy. -/
def truthyS : Option String → Bool
  | none => false
  | some s => s ≠ ""

/-- Python `s.split(sep)` on a character list: split at every occurrence of `sep`,
keeping empty pieces (`''.split(',') == ['']`, `'a,'.split(',') == ['a', '']`). -/
def split_chars (sep : Char) : List Char → List (List Char)
  | [] => [[]]
  | c :: cs =>
    let r := split_chars sep cs
    if c = sep then [] :: r
    else
      match r with
      | [] => [[c]]
      | hd :: tl => (c :: hd) :: tl

/-- Python `s.split(sep)` for a single-character separator. -/
def py_split (s : String) (sep : Char) : List String :=
  (split_chars sep s.data).map (fun cs => String.mk cs)

/-- Python `sep in s` for a single character. -/
def py_contains (s : String) (sep : Char) : Bool :=
  s.data.contains sep

/-- Lines 83-88 and 247-253: parse a comma-separated id list environment value.
`s.split(',') if s and ',' in s else [s] if s else []`. -/
def parse_id_list (s : String) : List String :=
  if s ≠ "" ∧ py_contains s ',' then py_split s ','
  else if s ≠ "" then [s] else []

/-- Python `p.rsplit('/', 1)`: the part before the last `'/'` paired with the part
after it, or `(p, none)` when `p` has no `'/'`. -/
def rsplit_slash_once (p : String) : String × Option String :=
  match (py_split p '/').reverse with
  | [] => (p, none)
  | [_] => (p, none)
  | last :: init_rev => (String.intercalate "/" init_rev.reverse, some last)

/-- Process-wide configuration read by `enrich_instance_groups` (lines 80-88 and
112-113).  `Option` fields model `os.environ.get(KEY)` (absent = `none`); the two
string fields model `os.environ.get(KEY, '')`. -/
structure EnrichEnv where
  sagemaker_iam_role_name : Option String
  s3_bucket_name : Option String
  on_create_path : Option String
  security_group_ids_str : String
  private_subnet_ids_str : String
deriving Repr

/-- Lines 90-103: the subnet-to-AZ mapping.  `describe_subnets_resp` models the
result of `ec2.describe_subnets(SubnetIds=...)` as the (SubnetId, AvailabilityZoneId)
pairs in response order (`none` = the call raised; the `except` clause then leaves the
mapping empty).  The mapping stays empty unless some group carries
`TargetAvailabilityZoneId` and the configured subnet list is non-empty. -/
def subnet_to_az_mapping (env : EnrichEnv)
    (describe_subnets_resp : Option (List (String × String)))
    (instance_groups : List InstanceGroup) : List (String × String) :=
  let private_subnet_ids := parse_id_list env.private_subnet_ids_str
  let has_target_az := instance_groups.any (fun g => g.targetAvailabilityZoneId.isSome)
  if has_target_az ∧ private_subnet_ids ≠ [] then
    describe_subnets_resp.getD []
  else []

/-- Lines 107-108: fill `ExecutionRole` when a role name is configured and the key is
absent. -/
def apply_execution_role (role : Option String) (g : InstanceGroup) : InstanceGroup :=
  if truthyS role ∧ g.executionRole = none then { g with executionRole := role }
  else g

/-- Lines 115-131: build the injected `LifeCycleConfig` from the bucket name and the
`ON_CREATE_PATH` value. -/
def make_lifecycle_config (bucket path : String) : LifeCycleConfig :=
  match rsplit_slash_once path with
  | (dir_part, some filename) =>
    { sourceS3Uri := "s3://" ++ bucket ++ "/" ++ dir_part, onCreate := filename }
  | (filename, none) =>
    { sourceS3Uri := "s3://" ++ bucket, onCreate := filename }

/-- Lines 110-131: inject `LifeCycleConfig` when this is not a RIG call, both bucket
and path are configured, and the key is absent. -/
def add_lifecycle_config (isRig : Bool) (bucket path : Option String)
    (g : InstanceGroup) : InstanceGroup :=
  if isRig = false ∧ truthyS bucket ∧ truthyS path ∧ g.lifeCycleConfig = none then
    { g with lifeCycleConfig := some (make_lifecycle_config (bucket.getD "") (path.getD "")) }
  else g

/-- Lines 132-136: when `OverrideVpcConfig` exists but lacks `SecurityGroupIds`, fill
it from the configured list; `Subnets` is untouched here. -/
def fill_ovc_security_group_ids (security_group_ids : List String)
    (g : InstanceGroup) : InstanceGroup :=
  match g.overrideVpcConfig with
  | some ovc =>
    if ovc.securityGroupIds = none then
      { g with overrideVpcConfig := some { ovc with securityGroupIds := some security_group_ids } }
    else g
  | none => g

/-- Lines 147-152: first subnet in mapping iteration order whose AZ equals the target. -/
def find_target_subnet (mapping : List (String × String)) (target_az : String) :
    Option String :=
  match mapping with
  | [] => none
  | (subnet_id, az) :: tl =>
    if az = target_az then some subnet_id else find_target_subnet tl target_az

/-- The `ValueError` message of line 142. -/
def target_az_error_msg : String :=
  "When using TargetAvailabilityZoneId, both subnet mappings and security group IDs must be provided"

/-- Lines 138-180: resolve `TargetAvailabilityZoneId`.  A raised `ValueError` becomes
`.error (msg, g)` carrying the group's state at the raise (mutations already applied to
the dict stay visible to the caller). -/
def resolve_target_az (security_group_ids : List String)
    (mapping : List (String × String)) (g : InstanceGroup) :
    Except (String × InstanceGroup) InstanceGroup :=
  match g.targetAvailabilityZoneId with
  | none => .ok g
  | some target_az =>
    if mapping = [] ∨ security_group_ids = [] then
      .error (target_az_error_msg, g)
    else
      match find_target_subnet mapping target_az with
      | some target_subnet =>
        let g' :=
          match g.overrideVpcConfig with
          | some ovc =>
            let ovc' :=
              if ovc.securityGroupIds = none then
                { ovc with securityGroupIds := some security_group_ids }
              else ovc
            { g with overrideVpcConfig := some { ovc' with subnets := some [target_subnet] } }
          | none =>
            { g with overrideVpcConfig := some ⟨some security_group_ids, some [target_subnet]⟩ }
        .ok { g' with targetAvailabilityZoneId := none }
      | none => .ok { g with targetAvailabilityZoneId := none }

/-- Lines 107-136: the part of the loop body that runs before the
`TargetAvailabilityZoneId` block (and hence before any `ValueError` can be raised):
`ExecutionRole` fill, `LifeCycleConfig` injection, `SecurityGroupIds` fill. -/
def pre_target_steps (role bucket path : Option String)
    (security_group_ids : List String) (isRig : Bool) (g : InstanceGroup) :
    InstanceGroup :=
  fill_ovc_security_group_ids security_group_ids
    (add_lifecycle_config isRig bucket path
      (apply_execution_role role g))

/-- The loop body of lines 105-180 for one group. -/
def process_group (role bucket path : Option String)
    (security_group_ids : List String) (mapping : List (String × String))
    (isRig : Bool) (g : InstanceGroup) : Except (String × InstanceGroup) InstanceGroup :=
  resolve_target_az security_group_ids mapping
    (pre_target_steps role bucket path security_group_ids isRig g)

/-- The `for instance_group in instance_groups` loop.  On a raise, the error carries
the caller-visible list: already-processed groups keep their mutations, the failing
group keeps its partial mutations, later groups are untouched. -/
def enrich_loop (role bucket path : Option String)
    (security_group_ids : List String) (mapping : List (String × String))
    (isRig : Bool) :
    List InstanceGroup → Except (String × List InstanceGroup) (List InstanceGroup)
  | [] => .ok []
  | g :: tl =>
    match process_group role bucket path security_group_ids mapping isRig g with
    | .error (msg, g') => .error (msg, g' :: tl)
    | .ok g' =>
      match enrich_loop role bucket path security_group_ids mapping isRig tl with
      | .error (msg, tl') => .error (msg, g' :: tl')
      | .ok tl' => .ok (g' :: tl')

/-- Model of `enrich_instance_groups` (lines 72-182).  Python's in-place mutation plus
`raise` is modelled by `Except`: `.ok` is the returned list, `.error (msg, l)` is a
propagating `ValueError` with message `msg`, where `l` is the caller's list at that
moment. -/
def enrich_instance_groups (env : EnrichEnv)
    (describe_subnets_resp : Option (List (String × String)))
    (instance_groups : List InstanceGroup) (isRig : Bool := false) :
    Except (String × List InstanceGroup) (List InstanceGroup) :=
  let security_group_ids := parse_id_list env.security_group_ids_str
  let mapping := subnet_to_az_mapping env describe_subnets_resp instance_groups
  enrich_loop env.sagemaker_iam_role_name env.s3_bucket_name env.on_create_path
    security_group_ids mapping isRig instance_groups

/-- The caller-visible list after a call, whether it returned or raised. -/
def result_list : Except (String × List InstanceGroup) (List InstanceGroup) →
    List InstanceGroup
  | .ok l => l
  | .error (_, l) => l

/-- Python `isinstance(x, list)` for a parsed JSON value. -/
def is_arr : JVal → Bool
  | JVal.arr _ => true
  | _ => false

/-- The `dirname(path)` operation as worded by the spec: everything before the last `'/'`. -/
def spec_dirname (p : String) : String :=
  String.intercalate "/" ((py_split p '/').dropLast)

/-- The `basename(path)` operation as worded by the spec: everything after the last `'/'`. -/
def spec_basename (p : String) : String :=
  ((py_split p '/').getLast?).getD p

/-- The injected `LifeCycleConfig` as the spec words it:
`{SourceS3Uri: "s3://{bucket}/{dirname(path)}", OnCreate: basename(path)}`, or, when
the path has no `'/'` separator, `{SourceS3Uri: "s3://{bucket}", OnCreate: path}`. -/
def spec_lifecycle_config (bucket path : String) : LifeCycleConfig :=
  if py_contains path '/' then
    { sourceS3Uri := "s3://" ++ bucket ++ "/" ++ spec_dirname path
      onCreate := spec_basename path }
  else
    { sourceS3Uri := "s3://" ++ bucket, onCreate := path }

/-! Concrete inputs used by the witness theorems. -/

/-- A concrete stub for `json.loads`: the string `"x"` parses to `[null]`, everything else fails. -/
def jl0 : String → Option JVal
  | "x" => some (JVal.arr [JVal.null])
  | _ => none

/-- A fragment environment whose only present fragment is index 1. -/
def env1 : Nat → Option String :=
  fun i => if i = 1 then some "x" else none

/-- A fragment environment with a well-formed fragment at 1 and a malformed one at 2. -/
def env2 : Nat → Option String :=
  fun i => if i = 1 then some "x" else if i = 2 then some "bad" else none

/-- The configuration of the worked example in the spec (security groups `["sg-1"]`). -/
def envC4 : EnrichEnv :=
  { sagemaker_iam_role_name := none
    s3_bucket_name := none
    on_create_path := none
    security_group_ids_str := "sg-1"
    private_subnet_ids_str := "subnet-a,subnet-b" }

/-- The worked example's group: `TargetAvailabilityZoneId = "az1"`, no other keys. -/
def gC4 : InstanceGroup :=
  { executionRole := none
    lifeCycleConfig := none
    overrideVpcConfig := none
    targetAvailabilityZoneId := some "az1"
    rest := [("InstanceGroupName", "grp1")] }

/-- The worked example's `describe_subnets` response:
`{"subnet-a": "az2", "subnet-b": "az1"}`. -/
def respC4 : Option (List (String × String)) :=
  some [("subnet-a", "az2"), ("subnet-b", "az1")]

/-- A fully-populated configuration for the enrichment witnesses. -/
def envE : EnrichEnv :=
  { sagemaker_iam_role_name := some "role-arn"
    s3_bucket_name := some "bkt"
    on_create_path := some "scripts/on_create.sh"
    security_group_ids_str := "sg-1,sg-2"
    private_subnet_ids_str := "subnet-a,subnet-b" }

/-- A group with no keys set at all. -/
def gPlain : InstanceGroup :=
  { executionRole := none
    lifeCycleConfig := none
    overrideVpcConfig := none
    targetAvailabilityZoneId := none
    rest := [("InstanceGroupName", "plain")] }

/-- A group that already carries `OverrideVpcConfig.SecurityGroupIds`. -/
def gOvc : InstanceGroup :=
  { executionRole := none
    lifeCycleConfig := none
    overrideVpcConfig := some { securityGroupIds := some ["sg-keep"], subnets := some ["sn-keep"] }
    targetAvailabilityZoneId := none
    rest := [("InstanceGroupName", "ovc")] }

/-- A group targeting an AZ that no configured subnet is in. -/
def gMiss : InstanceGroup :=
  { executionRole := none
    lifeCycleConfig := none
    overrideVpcConfig := none
    targetAvailabilityZoneId := some "az9"
    rest := [("InstanceGroupName", "miss")] }

/-- A group targeting an AZ, used to exercise the raising path. -/
def gT : InstanceGroup :=
  { executionRole := none
    lifeCycleConfig := none
    overrideVpcConfig := none
    targetAvailabilityZoneId := some "az1"
    rest := [("InstanceGroupName", "target")] }

/-- The `describe_subnets` response used by the enrichment witnesses. -/
def respE : Option (List (String × String)) :=
  some [("subnet-a", "az2"), ("subnet-b", "az1")]

/-- The worked example's expected output group. -/
def gC4out : InstanceGroup :=
  { executionRole := none
    lifeCycleConfig := none
    overrideVpcConfig := some { securityGroupIds := some ["sg-1"], subnets := some ["subnet-b"] }
    targetAvailabilityZoneId := none
    rest := [("InstanceGroupName", "grp1")] }

/-- Group `gMiss` after enrichment: only `TargetAvailabilityZoneId` was removed. -/
def gMissOut : InstanceGroup :=
  { executionRole := none
    lifeCycleConfig := none
    overrideVpcConfig := none
    targetAvailabilityZoneId := none
    rest := [("InstanceGroupName", "miss")] }

/-- The lifecycle config injected under `envE`. -/
def lccE : LifeCycleConfig :=
  { sourceS3Uri := "s3://bkt/scripts", onCreate := "on_create.sh" }

/-- Group `gPlain` after enrichment under `envE`. -/
def gPlainOut : InstanceGroup :=
  { executionRole := some "role-arn"
    lifeCycleConfig := some lccE
    overrideVpcConfig := none
    targetAvailabilityZoneId := none
    rest := [("InstanceGroupName", "plain")] }

/-- Group `gOvc` after enrichment under `envE`. -/
def gOvcOut : InstanceGroup :=
  { executionRole := some "role-arn"
    lifeCycleConfig := some lccE
    overrideVpcConfig := some { securityGroupIds := some ["sg-keep"], subnets := some ["sn-keep"] }
    targetAvailabilityZoneId := none
    rest := [("InstanceGroupName", "ovc")] }

/-- Group `gT` after only the pre-target steps under `envE`: role and lifecycle applied,
`TargetAvailabilityZoneId` still present. -/
def gTpartial : InstanceGroup :=
  { executionRole := some "role-arn"
    lifeCycleConfig := some lccE
    overrideVpcConfig := none
    targetAvailabilityZoneId := some "az1"
    rest := [("InstanceGroupName", "target")] }

/-! ## Lemmas about `combine_settings` -/

lemma foldl_extend_eq (settings_json : List JVal) (acc : List JVal) :
    settings_json.foldl
        (fun acc item =>
          match item with
          | JVal.arr xs => acc ++ xs
          | x => acc ++ [x]) acc
      = acc ++ settings_json.flatMap (fun item =>
          match item with
          | JVal.arr xs => xs
          | x => [x]) := by
  induction settings_json generalizing acc with
  | nil => simp
  | cons hd tl ih => cases hd <;> simp [ih]

lemma combine_step_eq (env : Nat → Option String) (jl : String → Option JVal)
    (combined : List JVal) (i : Nat) :
    combine_step env jl combined i = combined ++ fragment_elems jl (env i) := by
  unfold combine_step fragment_elems
  cases env i with
  | none => simp
  | some s =>
    by_cases h : s ≠ "" ∧ s ≠ "[]"
    · simp only [if_pos h]
      cases hjl : jl s with
      | none => simp
      | some v => cases v <;> simp [foldl_extend_eq]
    · simp [if_neg h]

lemma foldl_combine_eq (env : Nat → Option String) (jl : String → Option JVal)
    (idxs : List Nat) (acc : List JVal) :
    idxs.foldl (combine_step env jl) acc
      = acc ++ idxs.flatMap (fun i => fragment_elems jl (env i)) := by
  induction idxs generalizing acc with
  | nil => simp
  | cons hd tl ih => simp [combine_step_eq, ih]

lemma combine_settings_eq_flatMap (env : Nat → Option String) (jl : String → Option JVal)
    (nv : Option Nat) :
    combine_settings env jl nv
      = (List.range' 1 (nv.getD 20)).flatMap (fun i => fragment_elems jl (env i)) := by
  unfold combine_settings
  simp [foldl_combine_eq]

lemma length_fragment_elems (jl : String → Option JVal) (v : Option String) :
    (fragment_elems jl v).length = fragment_count jl v := by
  unfold fragment_elems fragment_count
  cases v with
  | none => rfl
  | some s =>
    by_cases h : s ≠ "" ∧ s ≠ "[]"
    · simp only [if_pos h]
      cases hjl : jl s with
      | none => rfl
      | some v' =>
        cases v' <;> simp [one_level_count, List.length_flatMap]
        apply congrArg
        apply List.map_congr_left
        intro item _
        cases item <;> rfl
    · simp [if_neg h]

lemma flatMap_congr_fun {α β : Type} (l : List α) (f g : α → List β)
    (h : ∀ a ∈ l, f a = g a) : l.flatMap f = l.flatMap g := by
  induction l with
  | nil => rfl
  | cons hd tl ih =>
    simp only [List.flatMap_cons]
    rw [h hd (List.mem_cons_self hd tl), ih (fun a ha => h a (List.mem_cons_of_mem hd ha))]

lemma fragment_elems_eq_nil (jl : String → Option JVal) (v : Option String)
    (hbad : v = none ∨ v = some "" ∨ v = some "[]" ∨
      (∃ s, v = some s ∧ jl s = none) ∨
      (∃ s w, v = some s ∧ jl s = some w ∧ is_arr w = false)) :
    fragment_elems jl v = [] := by
  unfold fragment_elems
  rcases hbad with h | h | h | ⟨s, hv, hjl⟩ | ⟨s, w, hv, hjl, hw⟩
  · simp [h]
  · simp [h]
  · simp [h]
  · subst hv
    by_cases h : s ≠ "" ∧ s ≠ "[]"
    · simp [if_pos h, hjl]
    · simp [if_neg h]
  · subst hv
    by_cases h : s ≠ "" ∧ s ≠ "[]"
    · simp only [if_pos h, hjl]
      cases w <;> simp_all [is_arr]
    · simp [if_neg h]

/-! ## Theorems for the `combine_settings` claims -/

/-- C3: for every environment in which each present fragment is a valid JSON array,
`combine_settings` returns a sequence whose length equals the sum over all fragments
of their one-level-flattened element counts (skipped fragments counting zero), and the
sequence is ordered by increasing fragment index and, within each fragment, by element
position (it is the concatenation of the fragments' flattened contents in index
order). -/
theorem combine_settings_length_and_order (env : Nat → Option String)
    (jl : String → Option JVal) (nv : Option Nat)
    (hvalid : ∀ i s, i ∈ List.range' 1 (nv.getD 20) → env i = some s → s ≠ "" →
      s ≠ "[]" → ∃ items, jl s = some (JVal.arr items)) :
    (combine_settings env jl nv).length
        = ((List.range' 1 (nv.getD 20)).map (fun i => fragment_count jl (env i))).sum
      ∧ combine_settings env jl nv
        = (List.range' 1 (nv.getD 20)).flatMap (fun i => fragment_elems jl (env i)) := by
  refine ⟨?_, combine_settings_eq_flatMap env jl nv⟩
  rw [combine_settings_eq_flatMap, List.length_flatMap]
  apply congrArg
  apply List.map_congr_left
  intro i _
  exact length_fragment_elems jl (env i)

/-- Witness for C3: a two-index environment whose only present fragment, `"x"` at
index 1, parses to `[null]`; the combined length is the fragment-count sum. -/
theorem combine_settings_length_and_order_witness :
    (combine_settings env1 jl0 (some 2)).length
        = ((List.range' 1 ((some 2 : Option Nat).getD 20)).map
            (fun i => fragment_count jl0 (env1 i))).sum
      ∧ combine_settings env1 jl0 (some 2)
        = (List.range' 1 ((some 2 : Option Nat).getD 20)).flatMap
            (fun i => fragment_elems jl0 (env1 i)) := by
  apply combine_settings_length_and_order env1 jl0 (some 2)
  intro i s hi hs h1 h2
  by_cases h : i = 1
  · subst h
    refine ⟨[JVal.null], ?_⟩
    have hx : s = "x" := by simpa [env1] using hs.symm
    subst hx
    rfl
  · simp [env1, h] at hs

/-- C7: a fragment that is absent, the empty string, the literal `"[]"`, unparseable
as JSON, or valid JSON whose top level is not an array contributes zero elements, and
the aggregation over all other indices is unchanged (so no such fragment can abort
processing of subsequent indices; the embedding of `combine_settings` is a total
function, mirroring that the Python code catches `json.JSONDecodeError` and raises
nothing else). -/
theorem combine_settings_skips_bad_fragment (env : Nat → Option String)
    (jl : String → Option JVal) (nv : Option Nat) (i : Nat)
    (hbad : env i = none ∨ env i = some "" ∨ env i = some "[]" ∨
      (∃ s, env i = some s ∧ jl s = none) ∨
      (∃ s w, env i = some s ∧ jl s = some w ∧ is_arr w = false)) :
    fragment_elems jl (env i) = [] ∧
      combine_settings env jl nv = combine_settings (update_env env i none) jl nv := by
  have hnil := fragment_elems_eq_nil jl (env i) hbad
  refine ⟨hnil, ?_⟩
  rw [combine_settings_eq_flatMap, combine_settings_eq_flatMap]
  apply flatMap_congr_fun
  intro j _
  by_cases hji : j = i
  · subst hji
    rw [hnil]
    simp [update_env, fragment_elems]
  · simp [update_env, hji]

/-- Witness for C7: the malformed fragment `"bad"` at index 2 contributes nothing and
does not disturb the aggregation of the other indices. -/
theorem combine_settings_skips_bad_fragment_witness :
    fragment_elems jl0 (env2 2) = [] ∧
      combine_settings env2 jl0 (some 3)
        = combine_settings (update_env env2 2 none) jl0 (some 3) := by
  apply combine_settings_skips_bad_fragment env2 jl0 (some 3) 2
  exact Or.inr (Or.inr (Or.inr (Or.inl ⟨"bad", rfl, rfl⟩)))

/-- C8: the aggregator `combine_settings` scans exactly the indices 1 through `num_groups` — its
result is the concatenation of the contributions of those indices and no others — and
`num_groups` defaults to 20 when `NUMBER_OF_INSTANCE_GROUPS` is not configured. -/
theorem combine_settings_scans_range (env : Nat → Option String)
    (jl : String → Option JVal) (nv : Option Nat) :
    combine_settings env jl nv
        = ((List.range' 1 (nv.getD 20)).map (fun i => fragment_elems jl (env i))).flatten
      ∧ combine_settings env jl none = combine_settings env jl (some 20) := by
  constructor
  · rw [combine_settings_eq_flatMap, List.flatMap_def]
  · rfl

/-! ## Lemmas about the split helpers -/

lemma split_chars_ne_nil (sep : Char) : ∀ cs : List Char, split_chars sep cs ≠ []
  | [] => by simp [split_chars]
  | c :: cs => by
    simp only [split_chars]
    by_cases hc : c = sep
    · simp [hc]
    · cases h : split_chars sep cs with
      | nil => exact absurd h (split_chars_ne_nil sep cs)
      | cons hd tl => simp [hc, h]

lemma length_split_chars (sep : Char) :
    ∀ cs : List Char, (split_chars sep cs).length = cs.count sep + 1
  | [] => by simp [split_chars]
  | c :: cs => by
    have ih := length_split_chars sep cs
    simp only [split_chars]
    by_cases hc : c = sep
    · simp [hc, List.count_cons, ih]
    · cases h : split_chars sep cs with
      | nil => exact absurd h (split_chars_ne_nil sep cs)
      | cons hd tl =>
        rw [h] at ih
        simp only [List.length_cons] at ih
        simp [hc, h, List.count_cons, Ne.symm hc, ih]

lemma py_split_ne_nil (s : String) (sep : Char) : py_split s sep ≠ [] := by
  unfold py_split
  simp [split_chars_ne_nil]

lemma length_py_split (s : String) (sep : Char) :
    (py_split s sep).length = s.data.count sep + 1 := by
  unfold py_split
  simp [length_split_chars]

lemma py_contains_true_of_count (s : String) (sep : Char)
    (h : 0 < s.data.count sep) : py_contains s sep = true := by
  unfold py_contains
  rw [List.elem_iff]
  exact List.count_pos_iff.mp h

lemma py_contains_false_of_count (s : String) (sep : Char)
    (h : s.data.count sep = 0) : py_contains s sep = false := by
  unfold py_contains
  simp only [← Bool.not_eq_true, List.elem_iff]
  intro hm
  rw [List.count_eq_zero] at h
  exact h hm

/-- The injected `LifeCycleConfig` the source builds from `rsplit('/', 1)` equals the
one the spec describes through `dirname`/`basename`. -/
lemma make_lifecycle_config_eq_spec (b p : String) :
    make_lifecycle_config b p = spec_lifecycle_config b p := by
  unfold make_lifecycle_config spec_lifecycle_config rsplit_slash_once spec_dirname
    spec_basename
  cases hrev : (py_split p '/').reverse with
  | nil =>
    exact absurd (by rwa [List.reverse_eq_nil_iff] at hrev) (py_split_ne_nil p '/')
  | cons last rest =>
    have hsp : py_split p '/' = rest.reverse ++ [last] := by
      rw [← List.reverse_reverse (py_split p '/'), hrev]
      simp
    cases rest with
    | nil =>
      have hcount : p.data.count '/' = 0 := by
        have hlen := length_py_split p '/'
        rw [hsp] at hlen
        simpa using hlen.symm
      have hcont := py_contains_false_of_count p '/' hcount
      simp [hcont]
    | cons y rev2 =>
      have hcount : 0 < p.data.count '/' := by
        have hlen := length_py_split p '/'
        rw [hsp] at hlen
        simp at hlen
        omega
      have hcont := py_contains_true_of_count p '/' hcount
      rw [hsp]
      simp [hcont]

/-! ## Lemmas about the per-group enrichment steps -/

lemma apply_execution_role_fields (role : Option String) (g : InstanceGroup) :
    (apply_execution_role role g).lifeCycleConfig = g.lifeCycleConfig
      ∧ (apply_execution_role role g).overrideVpcConfig = g.overrideVpcConfig
      ∧ (apply_execution_role role g).targetAvailabilityZoneId = g.targetAvailabilityZoneId
      ∧ (apply_execution_role role g).rest = g.rest := by
  unfold apply_execution_role
  by_cases h : truthyS role = true ∧ g.executionRole = none <;> simp [h]

lemma add_lifecycle_config_fields (isRig : Bool) (bucket path : Option String)
    (g : InstanceGroup) :
    (add_lifecycle_config isRig bucket path g).executionRole = g.executionRole
      ∧ (add_lifecycle_config isRig bucket path g).overrideVpcConfig = g.overrideVpcConfig
      ∧ (add_lifecycle_config isRig bucket path g).targetAvailabilityZoneId
          = g.targetAvailabilityZoneId
      ∧ (add_lifecycle_config isRig bucket path g).rest = g.rest := by
  unfold add_lifecycle_config
  by_cases h : isRig = false ∧ truthyS bucket = true ∧ truthyS path = true ∧
    g.lifeCycleConfig = none <;> simp [h]

lemma add_lifecycle_config_lcc (isRig : Bool) (bucket path : Option String)
    (g : InstanceGroup) :
    (add_lifecycle_config isRig bucket path g).lifeCycleConfig
      = if isRig = false ∧ truthyS bucket = true ∧ truthyS path = true ∧
            g.lifeCycleConfig = none
        then some (make_lifecycle_config (bucket.getD "") (path.getD ""))
        else g.lifeCycleConfig := by
  unfold add_lifecycle_config
  by_cases h : isRig = false ∧ truthyS bucket = true ∧ truthyS path = true ∧
    g.lifeCycleConfig = none <;> simp [h]

lemma fill_ovc_fields (sg : List String) (g : InstanceGroup) :
    (fill_ovc_security_group_ids sg g).executionRole = g.executionRole
      ∧ (fill_ovc_security_group_ids sg g).lifeCycleConfig = g.lifeCycleConfig
      ∧ (fill_ovc_security_group_ids sg g).targetAvailabilityZoneId
          = g.targetAvailabilityZoneId
      ∧ (fill_ovc_security_group_ids sg g).rest = g.rest := by
  unfold fill_ovc_security_group_ids
  cases h : g.overrideVpcConfig with
  | none => simp
  | some ovc => by_cases h2 : ovc.securityGroupIds = none <;> simp [h2]

lemma fill_ovc_keeps_sgids (sg : List String) (g : InstanceGroup)
    (ovc : OverrideVpcConfig) (v : List String)
    (hovc : g.overrideVpcConfig = some ovc) (hv : ovc.securityGroupIds = some v) :
    (fill_ovc_security_group_ids sg g).overrideVpcConfig = some ovc := by
  unfold fill_ovc_security_group_ids
  rw [hovc]
  simp [hv]
  exact hovc

lemma pre_target_steps_target (role bucket path : Option String) (sg : List String)
    (isRig : Bool) (g : InstanceGroup) :
    (pre_target_steps role bucket path sg isRig g).targetAvailabilityZoneId
      = g.targetAvailabilityZoneId := by
  unfold pre_target_steps
  rw [(fill_ovc_fields sg _).2.2.1, (add_lifecycle_config_fields isRig bucket path _).2.2.1,
    (apply_execution_role_fields role g).2.2.1]

lemma pre_target_steps_rest (role bucket path : Option String) (sg : List String)
    (isRig : Bool) (g : InstanceGroup) :
    (pre_target_steps role bucket path sg isRig g).rest = g.rest := by
  unfold pre_target_steps
  rw [(fill_ovc_fields sg _).2.2.2, (add_lifecycle_config_fields isRig bucket path _).2.2.2,
    (apply_execution_role_fields role g).2.2.2]

lemma pre_target_steps_lcc (role bucket path : Option String) (sg : List String)
    (isRig : Bool) (g : InstanceGroup) :
    (pre_target_steps role bucket path sg isRig g).lifeCycleConfig
      = if isRig = false ∧ truthyS bucket = true ∧ truthyS path = true ∧
            g.lifeCycleConfig = none
        then some (make_lifecycle_config (bucket.getD "") (path.getD ""))
        else g.lifeCycleConfig := by
  unfold pre_target_steps
  rw [(fill_ovc_fields sg _).2.1, add_lifecycle_config_lcc,
    (apply_execution_role_fields role g).1]

lemma pre_target_steps_keeps_sgids (role bucket path : Option String)
    (sg : List String) (isRig : Bool) (g : InstanceGroup) (ovc : OverrideVpcConfig)
    (v : List String) (hovc : g.overrideVpcConfig = some ovc)
    (hv : ovc.securityGroupIds = some v) :
    (pre_target_steps role bucket path sg isRig g).overrideVpcConfig = some ovc := by
  unfold pre_target_steps
  apply fill_ovc_keeps_sgids _ _ ovc v _ hv
  rw [(add_lifecycle_config_fields isRig bucket path _).2.1,
    (apply_execution_role_fields role g).2.1, hovc]

/-! ## Lemmas about `resolve_target_az` -/

lemma resolve_ok_of_no_target (sg : List String) (m : List (String × String))
    (g : InstanceGroup) (h : g.targetAvailabilityZoneId = none) :
    resolve_target_az sg m g = .ok g := by
  unfold resolve_target_az
  rw [h]

lemma resolve_error_of_bad_config (sg : List String) (m : List (String × String))
    (g : InstanceGroup) (az : String) (htg : g.targetAvailabilityZoneId = some az)
    (hbad : m = [] ∨ sg = []) :
    resolve_target_az sg m g = .error (target_az_error_msg, g) := by
  unfold resolve_target_az
  rw [htg]
  simp [hbad]

lemma resolve_error_eq (sg : List String) (m : List (String × String))
    (g gE : InstanceGroup) (msg : String)
    (h : resolve_target_az sg m g = .error (msg, gE)) :
    msg = target_az_error_msg ∧ gE = g := by
  unfold resolve_target_az at h
  cases htg : g.targetAvailabilityZoneId with
  | none => rw [htg] at h; exact absurd h (by simp)
  | some az =>
    rw [htg] at h
    by_cases hbad : m = [] ∨ sg = []
    · simp [hbad] at h
      exact ⟨h.1.symm, h.2.symm⟩
    · simp [hbad] at h
      cases hf : find_target_subnet m az <;> simp [hf] at h

lemma resolve_ok_common (sg : List String) (m : List (String × String))
    (g g' : InstanceGroup) (h : resolve_target_az sg m g = .ok g') :
    g'.executionRole = g.executionRole ∧ g'.lifeCycleConfig = g.lifeCycleConfig
      ∧ g'.rest = g.rest ∧ g'.targetAvailabilityZoneId = none := by
  unfold resolve_target_az at h
  cases htg : g.targetAvailabilityZoneId with
  | none =>
    rw [htg] at h
    simp at h
    subst h
    exact ⟨rfl, rfl, rfl, htg⟩
  | some az =>
    rw [htg] at h
    by_cases hbad : m = [] ∨ sg = []
    · simp [hbad] at h
    · simp [hbad] at h
      cases hf : find_target_subnet m az with
      | none =>
        rw [hf] at h
        simp at h
        subst h
        exact ⟨rfl, rfl, rfl, rfl⟩
      | some sid =>
        rw [hf] at h
        cases hovc : g.overrideVpcConfig with
        | none =>
          rw [hovc] at h
          simp at h
          subst h
          exact ⟨rfl, rfl, rfl, rfl⟩
        | some ovc =>
          rw [hovc] at h
          by_cases hsg : ovc.securityGroupIds = none <;>
            · simp [hsg] at h
              subst h
              exact ⟨rfl, rfl, rfl, rfl⟩

lemma resolve_ok_keeps_sgids (sg : List String) (m : List (String × String))
    (g g' : InstanceGroup) (ovc : OverrideVpcConfig) (v : List String)
    (hovc : g.overrideVpcConfig = some ovc) (hv : ovc.securityGroupIds = some v)
    (h : resolve_target_az sg m g = .ok g') :
    ∃ ovc', g'.overrideVpcConfig = some ovc' ∧ ovc'.securityGroupIds = some v := by
  unfold resolve_target_az at h
  cases htg : g.targetAvailabilityZoneId with
  | none =>
    rw [htg] at h
    simp at h
    subst h
    exact ⟨ovc, hovc, hv⟩
  | some az =>
    rw [htg] at h
    by_cases hbad : m = [] ∨ sg = []
    · simp [hbad] at h
    · simp [hbad] at h
      cases hf : find_target_subnet m az with
      | none =>
        rw [hf] at h
        simp at h
        subst h
        exact ⟨ovc, hovc, hv⟩
      | some sid =>
        rw [hf] at h
        rw [hovc] at h
        have hsg : ¬ ovc.securityGroupIds = none := by rw [hv]; simp
        simp [hsg] at h
        subst h
        exact ⟨{ ovc with subnets := some [sid] }, rfl, hv⟩

lemma resolve_ok_sets_subnets (sg : List String) (m : List (String × String))
    (g g' : InstanceGroup) (az : String) (sid : String)
    (htg : g.targetAvailabilityZoneId = some az)
    (hf : find_target_subnet m az = some sid)
    (h : resolve_target_az sg m g = .ok g') :
    ∃ ovc', g'.overrideVpcConfig = some ovc' ∧ ovc'.subnets = some [sid] := by
  unfold resolve_target_az at h
  rw [htg] at h
  by_cases hbad : m = [] ∨ sg = []
  · simp [hbad] at h
  · simp [hbad] at h
    rw [hf] at h
    cases hovc : g.overrideVpcConfig with
    | none =>
      rw [hovc] at h
      simp at h
      subst h
      exact ⟨_, rfl, rfl⟩
    | some ovc =>
      rw [hovc] at h
      by_cases hsg : ovc.securityGroupIds = none <;>
        · simp [hsg] at h
          subst h
          exact ⟨_, rfl, rfl⟩

/-! ## Lemmas about `process_group` -/

lemma process_group_ok_of_no_target (role bucket path : Option String)
    (sg : List String) (m : List (String × String)) (isRig : Bool)
    (g : InstanceGroup) (h : g.targetAvailabilityZoneId = none) :
    process_group role bucket path sg m isRig g
      = .ok (pre_target_steps role bucket path sg isRig g) := by
  unfold process_group
  apply resolve_ok_of_no_target
  rw [pre_target_steps_target, h]

lemma process_group_error_of_bad_config (role bucket path : Option String)
    (sg : List String) (m : List (String × String)) (isRig : Bool)
    (g : InstanceGroup) (az : String) (htg : g.targetAvailabilityZoneId = some az)
    (hbad : m = [] ∨ sg = []) :
    process_group role bucket path sg m isRig g
      = .error (target_az_error_msg, pre_target_steps role bucket path sg isRig g) := by
  unfold process_group
  apply resolve_error_of_bad_config _ _ _ az _ hbad
  rw [pre_target_steps_target, htg]

lemma process_group_error_eq (role bucket path : Option String)
    (sg : List String) (m : List (String × String)) (isRig : Bool)
    (g gE : InstanceGroup) (msg : String)
    (h : process_group role bucket path sg m isRig g = .error (msg, gE)) :
    msg = target_az_error_msg ∧ gE = pre_target_steps role bucket path sg isRig g := by
  unfold process_group at h
  exact resolve_error_eq _ _ _ _ _ h

lemma process_group_ok_target_none (role bucket path : Option String)
    (sg : List String) (m : List (String × String)) (isRig : Bool)
    (g g' : InstanceGroup)
    (h : process_group role bucket path sg m isRig g = .ok g') :
    g'.targetAvailabilityZoneId = none := by
  unfold process_group at h
  exact (resolve_ok_common _ _ _ _ h).2.2.2

lemma process_group_ok_rest (role bucket path : Option String)
    (sg : List String) (m : List (String × String)) (isRig : Bool)
    (g g' : InstanceGroup)
    (h : process_group role bucket path sg m isRig g = .ok g') :
    g'.rest = g.rest := by
  unfold process_group at h
  rw [(resolve_ok_common _ _ _ _ h).2.2.1, pre_target_steps_rest]

lemma process_group_ok_lcc (role bucket path : Option String)
    (sg : List String) (m : List (String × String)) (isRig : Bool)
    (g g' : InstanceGroup)
    (h : process_group role bucket path sg m isRig g = .ok g') :
    g'.lifeCycleConfig
      = if isRig = false ∧ truthyS bucket = true ∧ truthyS path = true ∧
            g.lifeCycleConfig = none
        then some (make_lifecycle_config (bucket.getD "") (path.getD ""))
        else g.lifeCycleConfig := by
  unfold process_group at h
  rw [(resolve_ok_common _ _ _ _ h).2.1, pre_target_steps_lcc]

lemma process_group_ok_keeps_sgids (role bucket path : Option String)
    (sg : List String) (m : List (String × String)) (isRig : Bool)
    (g g' : InstanceGroup) (ovc : OverrideVpcConfig) (v : List String)
    (hovc : g.overrideVpcConfig = some ovc) (hv : ovc.securityGroupIds = some v)
    (h : process_group role bucket path sg m isRig g = .ok g') :
    ∃ ovc', g'.overrideVpcConfig = some ovc' ∧ ovc'.securityGroupIds = some v := by
  unfold process_group at h
  exact resolve_ok_keeps_sgids _ _ _ _ ovc v
    (pre_target_steps_keeps_sgids role bucket path sg isRig g ovc v hovc hv) hv h

lemma process_group_error_keeps_sgids (role bucket path : Option String)
    (sg : List String) (m : List (String × String)) (isRig : Bool)
    (g gE : InstanceGroup) (msg : String) (ovc : OverrideVpcConfig) (v : List String)
    (hovc : g.overrideVpcConfig = some ovc) (hv : ovc.securityGroupIds = some v)
    (h : process_group role bucket path sg m isRig g = .error (msg, gE)) :
    ∃ ovc', gE.overrideVpcConfig = some ovc' ∧ ovc'.securityGroupIds = some v := by
  obtain ⟨-, hgE⟩ := process_group_error_eq _ _ _ _ _ _ _ _ _ h
  subst hgE
  exact ⟨ovc, pre_target_steps_keeps_sgids role bucket path sg isRig g ovc v hovc hv, hv⟩

lemma process_group_ok_sets_subnets (role bucket path : Option String)
    (sg : List String) (m : List (String × String)) (isRig : Bool)
    (g g' : InstanceGroup) (az sid : String)
    (htg : g.targetAvailabilityZoneId = some az)
    (hf : find_target_subnet m az = some sid)
    (h : process_group role bucket path sg m isRig g = .ok g') :
    ∃ ovc', g'.overrideVpcConfig = some ovc' ∧ ovc'.subnets = some [sid] := by
  unfold process_group at h
  apply resolve_ok_sets_subnets _ _ _ _ az sid _ hf h
  rw [pre_target_steps_target, htg]

/-! ## Lemmas about the enrichment loop -/

lemma enrich_loop_ok_spec (role bucket path : Option String) (sg : List String)
    (m : List (String × String)) (isRig : Bool) :
    ∀ (gs gs' : List InstanceGroup),
      enrich_loop role bucket path sg m isRig gs = .ok gs' →
      gs'.length = gs.length ∧
        ∀ i (h : i < gs.length) (h' : i < gs'.length),
          process_group role bucket path sg m isRig (gs.get ⟨i, h⟩)
            = .ok (gs'.get ⟨i, h'⟩)
  | [], gs', h => by
    simp only [enrich_loop] at h
    cases h
    exact ⟨rfl, fun i hi _ => absurd hi (by simp)⟩
  | g :: tl, gs', h => by
    simp only [enrich_loop] at h
    cases hpg : process_group role bucket path sg m isRig g with
    | error e => rw [hpg] at h; simp at h
    | ok g2 =>
      rw [hpg] at h
      cases hrec : enrich_loop role bucket path sg m isRig tl with
      | error e => rw [hrec] at h; simp at h
      | ok tl2 =>
        rw [hrec] at h
        simp at h
        subst h
        obtain ⟨hlen, hget⟩ := enrich_loop_ok_spec role bucket path sg m isRig tl tl2 hrec
        refine ⟨by simp [hlen], ?_⟩
        intro i hi hi'
        cases i with
        | zero => exact hpg
        | succ n => exact hget n (by simpa using hi) (by simpa using hi')

lemma enrich_loop_result_length (role bucket path : Option String) (sg : List String)
    (m : List (String × String)) (isRig : Bool) :
    ∀ gs : List InstanceGroup,
      (result_list (enrich_loop role bucket path sg m isRig gs)).length = gs.length
  | [] => by simp [enrich_loop, result_list]
  | g :: tl => by
    have ih := enrich_loop_result_length role bucket path sg m isRig tl
    simp only [enrich_loop]
    cases hpg : process_group role bucket path sg m isRig g with
    | error e => simp [result_list]
    | ok g2 =>
      cases hrec : enrich_loop role bucket path sg m isRig tl with
      | error e =>
        rw [hrec] at ih
        simpa [result_list] using ih
      | ok tl2 =>
        rw [hrec] at ih
        simpa [result_list] using ih

lemma enrich_loop_result_keeps_sgids (role bucket path : Option String)
    (sg : List String) (m : List (String × String)) (isRig : Bool) :
    ∀ (gs : List InstanceGroup) (i : Nat) (gIn : InstanceGroup)
      (ovc : OverrideVpcConfig) (v : List String),
      gs.get? i = some gIn →
      gIn.overrideVpcConfig = some ovc →
      ovc.securityGroupIds = some v →
      ∃ gOut ovc',
        (result_list (enrich_loop role bucket path sg m isRig gs)).get? i = some gOut
          ∧ gOut.overrideVpcConfig = some ovc'
          ∧ ovc'.securityGroupIds = some v
  | [], i, gIn, ovc, v, hin, _, _ => by simp at hin
  | g :: tl, i, gIn, ovc, v, hin, hovc, hv => by
    simp only [enrich_loop]
    cases hpg : process_group role bucket path sg m isRig g with
    | error e =>
      obtain ⟨msg, gE⟩ := e
      cases i with
      | zero =>
        simp at hin
        subst hin
        obtain ⟨ovc', ho, hs⟩ :=
          process_group_error_keeps_sgids _ _ _ _ _ _ _ _ _ ovc v hovc hv hpg
        exact ⟨gE, ovc', by simp [result_list], ho, hs⟩
      | succ n =>
        simp at hin
        exact ⟨gIn, ovc, by simp [result_list, hin], hovc, hv⟩
    | ok g2 =>
      cases hrec : enrich_loop role bucket path sg m isRig tl with
      | error e =>
        obtain ⟨msg, tlE⟩ := e
        cases i with
        | zero =>
          simp at hin
          subst hin
          obtain ⟨ovc', ho, hs⟩ :=
            process_group_ok_keeps_sgids _ _ _ _ _ _ _ _ ovc v hovc hv hpg
          exact ⟨g2, ovc', by simp [result_list], ho, hs⟩
        | succ n =>
          simp only [List.get?] at hin
          have hrecall := enrich_loop_result_keeps_sgids role bucket path sg m isRig
            tl n gIn ovc v hin hovc hv
          rw [hrec] at hrecall
          obtain ⟨gOut, ovc', hget, ho, hs⟩ := hrecall
          exact ⟨gOut, ovc', by simpa [result_list] using hget, ho, hs⟩
      | ok tl2 =>
        cases i with
        | zero =>
          simp at hin
          subst hin
          obtain ⟨ovc', ho, hs⟩ :=
            process_group_ok_keeps_sgids _ _ _ _ _ _ _ _ ovc v hovc hv hpg
          exact ⟨g2, ovc', by simp [result_list], ho, hs⟩
        | succ n =>
          simp only [List.get?] at hin
          have hrecall := enrich_loop_result_keeps_sgids role bucket path sg m isRig
            tl n gIn ovc v hin hovc hv
          rw [hrec] at hrecall
          obtain ⟨gOut, ovc', hget, ho, hs⟩ := hrecall
          exact ⟨gOut, ovc', by simpa [result_list] using hget, ho, hs⟩

lemma enrich_loop_error_of_bad_config (role bucket path : Option String)
    (sg : List String) (m : List (String × String)) (isRig : Bool)
    (hbad : m = [] ∨ sg = []) :
    ∀ gs : List InstanceGroup,
      (∃ g ∈ gs, (g.targetAvailabilityZoneId).isSome = true) →
      ∃ l, enrich_loop role bucket path sg m isRig gs
        = .error (target_az_error_msg, l)
  | [], hex => absurd hex (by simp)
  | g :: tl, hex => by
    cases htg : g.targetAvailabilityZoneId with
    | some az =>
      refine ⟨pre_target_steps role bucket path sg isRig g :: tl, ?_⟩
      simp only [enrich_loop]
      rw [process_group_error_of_bad_config role bucket path sg m isRig g az htg hbad]
    | none =>
      have hex' : ∃ g' ∈ tl, (g'.targetAvailabilityZoneId).isSome = true := by
        obtain ⟨g0, hg0mem, hg0⟩ := hex
        rcases List.mem_cons.mp hg0mem with hgg | htl
        · subst hgg; rw [htg] at hg0; simp at hg0
        · exact ⟨g0, htl, hg0⟩
      obtain ⟨l, hl⟩ := enrich_loop_error_of_bad_config role bucket path sg m isRig hbad tl hex'
      refine ⟨pre_target_steps role bucket path sg isRig g :: l, ?_⟩
      simp only [enrich_loop]
      rw [process_group_ok_of_no_target role bucket path sg m isRig g htg, hl]

lemma enrich_loop_error_at_first_target (role bucket path : Option String)
    (sg : List String) (m : List (String × String)) (isRig : Bool)
    (hbad : m = [] ∨ sg = []) :
    ∀ (gs : List InstanceGroup) (k : Nat) (hk : k < gs.length),
      (∀ j (hj : j < gs.length), j < k →
        (gs.get ⟨j, hj⟩).targetAvailabilityZoneId = none) →
      ((gs.get ⟨k, hk⟩).targetAvailabilityZoneId).isSome = true →
      enrich_loop role bucket path sg m isRig gs
        = .error (target_az_error_msg,
            (gs.take k).map (pre_target_steps role bucket path sg isRig)
              ++ pre_target_steps role bucket path sg isRig (gs.get ⟨k, hk⟩)
                :: gs.drop (k + 1))
  | [], k, hk, _, _ => absurd hk (by simp)
  | g :: tl, 0, hk, _, htg => by
    obtain ⟨az, haz⟩ := Option.isSome_iff_exists.mp htg
    simp only [enrich_loop]
    rw [process_group_error_of_bad_config role bucket path sg m isRig g az haz hbad]
    simp
  | g :: tl, k + 1, hk, hfirst, htg => by
    have hg : g.targetAvailabilityZoneId = none :=
      hfirst 0 (by simp) (Nat.succ_pos k)
    have hrec := enrich_loop_error_at_first_target role bucket path sg m isRig hbad tl
      k (by simpa using hk)
      (fun j hj hjk => hfirst (j + 1) (by simpa using hj) (by omega))
      (by simpa using htg)
    simp only [enrich_loop]
    rw [process_group_ok_of_no_target role bucket path sg m isRig g hg, hrec]
    simp

/-! ## Theorems for the `enrich_instance_groups` claims -/

/-- C1: for every input list and configuration, every group in the list returned by
`enrich_instance_groups` lacks `TargetAvailabilityZoneId` — whether the target AZ was
resolved to a subnet or no subnet in the mapping matched it, the key is deleted. -/
theorem enrich_removes_target_az (env : EnrichEnv)
    (resp : Option (List (String × String))) (gs : List InstanceGroup) (isRig : Bool)
    (gs' : List InstanceGroup)
    (h : enrich_instance_groups env resp gs isRig = .ok gs') :
    ∀ g ∈ gs', g.targetAvailabilityZoneId = none := by
  unfold enrich_instance_groups at h
  intro g hg
  obtain ⟨⟨i, hi⟩, hgi⟩ := List.mem_iff_get.mp hg
  obtain ⟨hlen, hget⟩ := enrich_loop_ok_spec _ _ _ _ _ _ gs gs' h
  have hpg := hget i (by omega) hi
  rw [hgi] at hpg
  exact process_group_ok_target_none _ _ _ _ _ _ _ _ hpg

/-- Witness for C1: a group targeting `az9`, which no subnet of the mapping is in,
comes out without `TargetAvailabilityZoneId` (the no-match branch also deletes it). -/
theorem enrich_removes_target_az_witness : gMissOut.targetAvailabilityZoneId = none :=
  enrich_removes_target_az envC4 (some [("subnet-a", "az2")]) [gMiss] false [gMissOut]
    rfl gMissOut (List.mem_singleton.mpr rfl)

/-- C2: if some group carries `TargetAvailabilityZoneId` while the subnet-to-AZ
mapping is empty (also when it is empty because the bulk `describe_subnets` lookup
failed) or the configured security-group list is empty, `enrich_instance_groups`
raises the `ValueError` of line 142, aborting the whole call. -/
theorem enrich_raises_on_missing_config (env : EnrichEnv)
    (resp : Option (List (String × String))) (gs : List InstanceGroup) (isRig : Bool)
    (hex : ∃ g ∈ gs, (g.targetAvailabilityZoneId).isSome = true)
    (hbad : subnet_to_az_mapping env resp gs = []
      ∨ parse_id_list env.security_group_ids_str = []) :
    ∃ l, enrich_instance_groups env resp gs isRig = .error (target_az_error_msg, l) := by
  unfold enrich_instance_groups
  exact enrich_loop_error_of_bad_config _ _ _ _ _ _ hbad gs hex

/-- Witness for C2: the worked example's group, with the subnet lookup having failed
(`resp = none`, so the mapping is empty), makes the whole call raise. -/
theorem enrich_raises_on_missing_config_witness :
    ∃ l, enrich_instance_groups envC4 none [gC4] false
      = .error (target_az_error_msg, l) :=
  enrich_raises_on_missing_config envC4 none [gC4] false
    ⟨gC4, List.mem_singleton.mpr rfl, rfl⟩ (Or.inl rfl)

/-- C4: AZ resolution picks the first subnet in mapping iteration order whose AZ
equals the target (first conjunct); any group whose target AZ resolves gets
`OverrideVpcConfig.Subnets` set to the single-element list of that subnet (second
conjunct); and on the spec's worked example — target `"az1"`, no pre-existing
`OverrideVpcConfig`, mapping `{"subnet-a": "az2", "subnet-b": "az1"}`, security groups
`["sg-1"]` — the output `OverrideVpcConfig` is exactly
`{SecurityGroupIds: ["sg-1"], Subnets: ["subnet-b"]}` (third conjunct). -/
theorem enrich_az_resolution_first_match :
    (∀ (pre : List (String × String)) (sid az : String) (tl : List (String × String)),
        (∀ x ∈ pre, x.2 ≠ az) →
        find_target_subnet (pre ++ (sid, az) :: tl) az = some sid)
      ∧ (∀ (env : EnrichEnv) (resp : Option (List (String × String)))
          (gs : List InstanceGroup) (isRig : Bool) (gs' : List InstanceGroup)
          (i : Nat) (gIn gOut : InstanceGroup) (az sid : String),
          enrich_instance_groups env resp gs isRig = .ok gs' →
          gs.get? i = some gIn →
          gs'.get? i = some gOut →
          gIn.targetAvailabilityZoneId = some az →
          find_target_subnet (subnet_to_az_mapping env resp gs) az = some sid →
          ∃ ovc', gOut.overrideVpcConfig = some ovc' ∧ ovc'.subnets = some [sid])
      ∧ enrich_instance_groups envC4 respC4 [gC4] false = .ok [gC4out] := by
  refine ⟨?_, ?_, rfl⟩
  · intro pre
    induction pre with
    | nil =>
      intro sid az tl _
      simp [find_target_subnet]
    | cons x xs ih =>
      intro sid az tl hpre
      have hx : x.2 ≠ az := hpre x (List.mem_cons_self x xs)
      obtain ⟨x1, x2⟩ := x
      simp only [List.cons_append, find_target_subnet]
      rw [if_neg (by simpa using hx)]
      exact ih sid az tl (fun y hy => hpre y (List.mem_cons_of_mem _ hy))
  · intro env resp gs isRig gs' i gIn gOut az sid h hin hout htg hf
    unfold enrich_instance_groups at h
    obtain ⟨hlen, hget⟩ := enrich_loop_ok_spec _ _ _ _ _ _ gs gs' h
    obtain ⟨hi, hgi⟩ := List.get?_eq_some.mp hin
    obtain ⟨hi', hgi'⟩ := List.get?_eq_some.mp hout
    have hpg := hget i hi hi'
    rw [hgi, hgi'] at hpg
    exact process_group_ok_sets_subnets _ _ _ _ _ _ _ _ az sid htg hf hpg

/-- Witness for C4: on the worked example's mapping, iteration skips `subnet-a`
(whose AZ is `az2`) and selects `subnet-b`, the first subnet whose AZ is `az1`. -/
theorem enrich_az_resolution_first_match_witness :
    find_target_subnet ([("subnet-a", "az2")] ++ ("subnet-b", "az1") :: []) "az1"
      = some "subnet-b" :=
  enrich_az_resolution_first_match.1 [("subnet-a", "az2")] "subnet-b" "az1" []
    (by decide)

/-- C5: on a run that returns, a group receives a `LifeCycleConfig` injection exactly
when the call is not restricted, the group lacked `LifeCycleConfig`, and both the
bucket name and script path are configured; the injected value is
`{SourceS3Uri: "s3://{bucket}/{dirname(path)}", OnCreate: basename(path)}` (or
`{SourceS3Uri: "s3://{bucket}", OnCreate: path}` when the path has no `'/'`);
otherwise — key already set, restricted call, or missing configuration — the group's
`LifeCycleConfig` is exactly its input value. -/
theorem enrich_lifecycle_injection (env : EnrichEnv)
    (resp : Option (List (String × String))) (gs : List InstanceGroup) (isRig : Bool)
    (gs' : List InstanceGroup) (i : Nat) (gIn gOut : InstanceGroup)
    (h : enrich_instance_groups env resp gs isRig = .ok gs')
    (hin : gs.get? i = some gIn) (hout : gs'.get? i = some gOut) :
    gOut.lifeCycleConfig
      = if isRig = false ∧ truthyS env.s3_bucket_name = true ∧
            truthyS env.on_create_path = true ∧ gIn.lifeCycleConfig = none
        then some (spec_lifecycle_config (env.s3_bucket_name.getD "")
            (env.on_create_path.getD ""))
        else gIn.lifeCycleConfig := by
  unfold enrich_instance_groups at h
  obtain ⟨hlen, hget⟩ := enrich_loop_ok_spec _ _ _ _ _ _ gs gs' h
  obtain ⟨hi, hgi⟩ := List.get?_eq_some.mp hin
  obtain ⟨hi', hgi'⟩ := List.get?_eq_some.mp hout
  have hpg := hget i hi hi'
  rw [hgi, hgi'] at hpg
  rw [process_group_ok_lcc _ _ _ _ _ _ _ _ hpg, make_lifecycle_config_eq_spec]

/-- Witness for C5: under `envE` (bucket `bkt`, path `scripts/on_create.sh`, not
restricted) a group without `LifeCycleConfig` receives
`{SourceS3Uri: "s3://bkt/scripts", OnCreate: "on_create.sh"}`. -/
theorem enrich_lifecycle_injection_witness :
    gPlainOut.lifeCycleConfig
      = if (false : Bool) = false ∧ truthyS envE.s3_bucket_name = true ∧
            truthyS envE.on_create_path = true ∧ gPlain.lifeCycleConfig = none
        then some (spec_lifecycle_config (envE.s3_bucket_name.getD "")
            (envE.on_create_path.getD ""))
        else gPlain.lifeCycleConfig :=
  enrich_lifecycle_injection envE respE [gPlain] false [gPlainOut] 0 gPlain gPlainOut
    rfl rfl rfl

/-- C6: a `SecurityGroupIds` value present in a group's `OverrideVpcConfig` on entry
is never changed by any step of `enrich_instance_groups`: the caller-visible list —
whether the call returns or raises — still holds that exact value at the same
position. -/
theorem enrich_never_overwrites_sgids (env : EnrichEnv)
    (resp : Option (List (String × String))) (gs : List InstanceGroup) (isRig : Bool)
    (i : Nat) (gIn : InstanceGroup) (ovc : OverrideVpcConfig) (v : List String)
    (hin : gs.get? i = some gIn)
    (hovc : gIn.overrideVpcConfig = some ovc)
    (hv : ovc.securityGroupIds = some v) :
    ∃ gOut ovc',
      (result_list (enrich_instance_groups env resp gs isRig)).get? i = some gOut
        ∧ gOut.overrideVpcConfig = some ovc'
        ∧ ovc'.securityGroupIds = some v := by
  unfold enrich_instance_groups
  exact enrich_loop_result_keeps_sgids _ _ _ _ _ _ gs i gIn ovc v hin hovc hv

/-- Witness for C6: `gOvc` enters with `SecurityGroupIds = ["sg-keep"]` and the
configured list is `["sg-1", "sg-2"]`; the output still holds `["sg-keep"]`. -/
theorem enrich_never_overwrites_sgids_witness :
    ∃ gOut ovc',
      (result_list (enrich_instance_groups envE respE [gOvc] false)).get? 0 = some gOut
        ∧ gOut.overrideVpcConfig = some ovc'
        ∧ ovc'.securityGroupIds = some ["sg-keep"] :=
  enrich_never_overwrites_sgids envE respE [gOvc] false 0 gOvc
    { securityGroupIds := some ["sg-keep"], subnets := some ["sn-keep"] } ["sg-keep"]
    rfl rfl rfl

/-- C9: whenever `enrich_instance_groups` returns, the returned list has the same
number of groups as the input, in the same order (the group at each position is the
enrichment of the input group at that position — witnessed here through the untouched
pass-through fields). -/
theorem enrich_preserves_structure (env : EnrichEnv)
    (resp : Option (List (String × String))) (gs : List InstanceGroup) (isRig : Bool)
    (gs' : List InstanceGroup)
    (h : enrich_instance_groups env resp gs isRig = .ok gs') :
    gs'.length = gs.length ∧
      ∀ (i : Nat) (gIn gOut : InstanceGroup),
        gs.get? i = some gIn → gs'.get? i = some gOut → gOut.rest = gIn.rest := by
  unfold enrich_instance_groups at h
  obtain ⟨hlen, hget⟩ := enrich_loop_ok_spec _ _ _ _ _ _ gs gs' h
  refine ⟨hlen, ?_⟩
  intro i gIn gOut hin hout
  obtain ⟨hi, hgi⟩ := List.get?_eq_some.mp hin
  obtain ⟨hi', hgi'⟩ := List.get?_eq_some.mp hout
  have hpg := hget i hi hi'
  rw [hgi, hgi'] at hpg
  exact process_group_ok_rest _ _ _ _ _ _ _ _ hpg

/-- Witness for C9: a two-group input yields a two-group output. -/
theorem enrich_preserves_structure_witness :
    ([gPlainOut, gOvcOut] : List InstanceGroup).length
      = ([gPlain, gOvc] : List InstanceGroup).length :=
  (enrich_preserves_structure envE respE [gPlain, gOvc] false [gPlainOut, gOvcOut]
    rfl).1

/-- C10: enrichment failure is not atomic.  When some group carries
`TargetAvailabilityZoneId` while the mapping or the security-group list is empty, the
`ValueError` is raised while processing the first such group (position `k`), and the
caller-visible list at that moment has every earlier group fully enriched, the failing
group already carrying its `ExecutionRole` / `LifeCycleConfig` /
`OverrideVpcConfig.SecurityGroupIds` enrichment (with `TargetAvailabilityZoneId` still
present), and every later group untouched — nothing is rolled back. -/
theorem enrich_failure_not_atomic (env : EnrichEnv)
    (resp : Option (List (String × String))) (gs : List InstanceGroup) (isRig : Bool)
    (k : Nat) (hk : k < gs.length)
    (hfirst : ∀ j (hj : j < gs.length), j < k →
      (gs.get ⟨j, hj⟩).targetAvailabilityZoneId = none)
    (htg : ((gs.get ⟨k, hk⟩).targetAvailabilityZoneId).isSome = true)
    (hbad : subnet_to_az_mapping env resp gs = []
      ∨ parse_id_list env.security_group_ids_str = []) :
    enrich_instance_groups env resp gs isRig
      = .error (target_az_error_msg,
          (gs.take k).map (pre_target_steps env.sagemaker_iam_role_name
              env.s3_bucket_name env.on_create_path
              (parse_id_list env.security_group_ids_str) isRig)
            ++ pre_target_steps env.sagemaker_iam_role_name env.s3_bucket_name
                env.on_create_path (parse_id_list env.security_group_ids_str) isRig
                (gs.get ⟨k, hk⟩)
              :: gs.drop (k + 1)) := by
  unfold enrich_instance_groups
  exact enrich_loop_error_at_first_target _ _ _ _ _ _ hbad gs k hk hfirst htg

/-- Witness for C10: `[gPlain, gT, gOvc]` with a failed subnet lookup — the raise
happens at `gT` (position 1); the caller's list shows `gPlain` fully enriched, `gT`
with role and lifecycle already applied and its target key still present, and `gOvc`
untouched. -/
theorem enrich_failure_not_atomic_witness :
    enrich_instance_groups envE none [gPlain, gT, gOvc] false
      = .error (target_az_error_msg, [gPlainOut, gTpartial, gOvc]) :=
  enrich_failure_not_atomic envE none [gPlain, gT, gOvc] false 1 (by decide)
    (fun j hj hj1 => by
      have : j = 0 := by omega
      subst this
      rfl)
    rfl (Or.inl rfl)

end HyperpodCreator
